import Mathlib

/-!
Verification of the bbanking ledger core against its specification.

The development shallowly embeds the route handlers that form the ledger
core of the repository:

* `POST /api/transactions/internal`, `POST /api/transactions/neft`,
  `POST /api/transactions/imps` (transfer engine, `routes/transactions.ts`),
* `POST /api/accounts` (account creation, `routes/accounts.ts`),
* `PATCH /api/gl/:id/post`, `PATCH /api/gl/:id/reverse`,
  `POST /api/gl/batch-post`, `GET /api/gl/reports/trial-balance`
  (GL posting engine, `routes/gl.ts`).

The database is embedded as explicit state (lists of rows); each handler
becomes a pure function from the state and the request fields to either an
error (an `AppError` throw in the source — the surrounding transaction
guarantees no mutation is committed on a throw, so an error result carries
no successor state) or the successor state plus the created rows.
Monetary amounts (`Prisma.Decimal`, fixed-point) are embedded as `Int`;
wall-clock timestamps (`createdAt`, `processedAt`, `postedAt`, …) are not
modelled except for `postingDate`, which the trial-balance report filters
on and which is embedded as an integer day index.
-/

/-- The raw `amount` field of a JSON request body.  A JS value can be
absent/null/empty (falsy), a number, or a non-numeric string. -/
inductive AmountInput where
  | missing
  | num (i : Int)
  | nonNumeric (s : String)
deriving DecidableEq, Repr, Inhabited

/-- JS truthiness of an `amount` value: `undefined`, `null`, `''` and `0`
are falsy (`if (!amount)` in the source). -/
def AmountInput.truthy : AmountInput → Bool
  | .missing => false
  | .num i => i != 0
  | .nonNumeric s => s != ""

/-- `new Prisma.Decimal(amount)`: succeeds on numeric input, throws on
non-numeric input. -/
def AmountInput.toDecimal : AmountInput → Option Int
  | .num i => some i
  | .missing => none
  | .nonNumeric _ => none

/-- An `Account` row (the columns the ledger core reads or writes). -/
structure Account where
  id : String
  accountNumber : String
  customerId : String
  balance : Int
  availableBalance : Int
  status : String
deriving DecidableEq, Repr, Inhabited

/-- A `Transaction` row (the columns the transfer engine writes).
`txId` stands for the row's unique `transactionId`; `reference` is the
optional cross-reference to a paired leg's `transactionId`. -/
structure Transaction where
  txId : Nat
  fromAccountId : Option String
  toAccountId : Option String
  type : String
  amount : Int
  mode : String
  status : String
  description : Option String
  reference : Option Nat
  balanceAfter : Int
  beneficiaryName : Option String
  beneficiaryAccount : Option String
  beneficiaryBank : Option String
  beneficiaryIfsc : Option String
deriving DecidableEq, Repr, Inhabited

/-- The database state seen by the transfer engine: customers (only their
ids are relevant), accounts, transactions, and the fresh-id counter that
stands for the store's `transactionId` generator. -/
structure Bank where
  customers : List String
  accounts : List Account
  transactions : List Transaction
  nextTxId : Nat
deriving DecidableEq, Repr, Inhabited

/-- The distinct `AppError` throws of the embedded handlers. -/
inductive ApiError where
  | requiredFields
  | sameAccount
  | sourceNotFound
  | destNotFound
  | sourceInactive
  | destInactive
  | insufficientBalance
  | impsLimitExceeded
  | invalidDecimal
  | customerNotFound
deriving DecidableEq, Repr, Inhabited

/-- `prisma.account.findUnique({ where: { id } })`. -/
def findAccount (accounts : List Account) (id : String) : Option Account :=
  accounts.find? (fun a => a.id == id)

/-- `prisma.account.update` with `balance: { increment: d }` and
`availableBalance: { increment: d }` on the row keyed by `id`
(a decrement is an increment by `-d`). -/
def applyDelta (accounts : List Account) (id : String) (d : Int) : List Account :=
  accounts.map (fun a =>
    if a.id == id then
      { a with balance := a.balance + d, availableBalance := a.availableBalance + d }
    else a)

/-- `POST /api/transactions/internal` (`routes/transactions.ts`).
Validation order follows the source: required fields, same-account check,
both lookups, both status checks, decimal conversion, available-balance
check; then, inside one storage transaction, debit the source, credit the
destination, and append the debit leg and the credit leg (the credit leg
referencing the debit leg's `transactionId`). -/
def transferInternal (db : Bank) (fromAccountId toAccountId : String)
    (amount : AmountInput) (description : String) :
    Except ApiError (Bank × Transaction × Transaction) :=
  if fromAccountId = "" ∨ toAccountId = "" ∨ amount.truthy = false then
    .error .requiredFields
  else if fromAccountId = toAccountId then
    .error .sameAccount
  else
    match findAccount db.accounts fromAccountId, findAccount db.accounts toAccountId with
    | none, _ => .error .sourceNotFound
    | some _, none => .error .destNotFound
    | some fromAccount, some toAccount =>
      if fromAccount.status ≠ "active" then .error .sourceInactive
      else if toAccount.status ≠ "active" then .error .destInactive
      else
        match amount.toDecimal with
        | none => .error .invalidDecimal
        | some amt =>
          if fromAccount.availableBalance < amt then .error .insufficientBalance
          else
            let accounts1 := applyDelta db.accounts fromAccountId (-amt)
            let accounts2 := applyDelta accounts1 toAccountId amt
            -- `updatedFrom.balance` / `updatedTo.balance` from the two updates
            let updatedFromBalance := fromAccount.balance - amt
            let updatedToBalance := toAccount.balance + amt
            let debitTx : Transaction :=
              { txId := db.nextTxId
                fromAccountId := some fromAccountId
                toAccountId := some toAccountId
                type := "debit"
                amount := amt
                mode := "internal"
                status := "completed"
                description := some description
                reference := none
                balanceAfter := updatedFromBalance
                beneficiaryName := none
                beneficiaryAccount := none
                beneficiaryBank := none
                beneficiaryIfsc := none }
            let creditTx : Transaction :=
              { txId := db.nextTxId + 1
                fromAccountId := some fromAccountId
                toAccountId := some toAccountId
                type := "credit"
                amount := amt
                mode := "internal"
                status := "completed"
                description := some description
                reference := some debitTx.txId
                balanceAfter := updatedToBalance
                beneficiaryName := none
                beneficiaryAccount := none
                beneficiaryBank := none
                beneficiaryIfsc := none }
            .ok ({ db with
                    accounts := accounts2
                    transactions := db.transactions ++ [debitTx, creditTx]
                    nextTxId := db.nextTxId + 2 },
                 debitTx, creditTx)

/-- `POST /api/transactions/neft` (`routes/transactions.ts`).
Required fields (`beneficiaryBank` is stored but not required), source
lookup, status check, decimal conversion, available-balance check; then
debit the source and append a single pending debit leg carrying the
beneficiary details. -/
def transferNeft (db : Bank)
    (fromAccountId beneficiaryAccount beneficiaryName beneficiaryBank beneficiaryIfsc : String)
    (amount : AmountInput) (description : String) :
    Except ApiError (Bank × Transaction) :=
  if fromAccountId = "" ∨ beneficiaryAccount = "" ∨ beneficiaryName = "" ∨
      beneficiaryIfsc = "" ∨ amount.truthy = false then
    .error .requiredFields
  else
    match findAccount db.accounts fromAccountId with
    | none => .error .sourceNotFound
    | some fromAccount =>
      if fromAccount.status ≠ "active" then .error .sourceInactive
      else
        match amount.toDecimal with
        | none => .error .invalidDecimal
        | some amt =>
          if fromAccount.availableBalance < amt then .error .insufficientBalance
          else
            let tx : Transaction :=
              { txId := db.nextTxId
                fromAccountId := some fromAccountId
                toAccountId := none
                type := "debit"
                amount := amt
                mode := "neft"
                status := "pending"
                description := some description
                reference := none
                balanceAfter := fromAccount.balance - amt
                beneficiaryName := some beneficiaryName
                beneficiaryAccount := some beneficiaryAccount
                beneficiaryBank := some beneficiaryBank
                beneficiaryIfsc := some beneficiaryIfsc }
            .ok ({ db with
                    accounts := applyDelta db.accounts fromAccountId (-amt)
                    transactions := db.transactions ++ [tx]
                    nextTxId := db.nextTxId + 1 },
                 tx)

/-- `POST /api/transactions/imps` (`routes/transactions.ts`).
Required fields, decimal conversion, the fixed 500 000 per-transfer
ceiling (checked before the account lookup), source lookup, status check,
available-balance check; then debit the source and append a single
completed debit leg carrying the beneficiary details. -/
def transferImps (db : Bank)
    (fromAccountId beneficiaryAccount beneficiaryName beneficiaryIfsc : String)
    (amount : AmountInput) (description : String) :
    Except ApiError (Bank × Transaction) :=
  if fromAccountId = "" ∨ beneficiaryAccount = "" ∨ beneficiaryName = "" ∨
      beneficiaryIfsc = "" ∨ amount.truthy = false then
    .error .requiredFields
  else
    match amount.toDecimal with
    | none => .error .invalidDecimal
    | some amt =>
      if 500000 < amt then .error .impsLimitExceeded
      else
        match findAccount db.accounts fromAccountId with
        | none => .error .sourceNotFound
        | some fromAccount =>
          if fromAccount.status ≠ "active" then .error .sourceInactive
          else if fromAccount.availableBalance < amt then .error .insufficientBalance
          else
            let tx : Transaction :=
              { txId := db.nextTxId
                fromAccountId := some fromAccountId
                toAccountId := none
                type := "debit"
                amount := amt
                mode := "imps"
                status := "completed"
                description := some description
                reference := none
                balanceAfter := fromAccount.balance - amt
                beneficiaryName := some beneficiaryName
                beneficiaryAccount := some beneficiaryAccount
                beneficiaryBank := none
                beneficiaryIfsc := some beneficiaryIfsc }
            .ok ({ db with
                    accounts := applyDelta db.accounts fromAccountId (-amt)
                    transactions := db.transactions ++ [tx]
                    nextTxId := db.nextTxId + 1 },
                 tx)

/-- `POST /api/accounts` (`routes/accounts.ts`).
Required fields, customer lookup, then create the account with
`balance = availableBalance = initialDeposit` and, when the deposit is
positive, append the initial cash credit transaction.  The randomly
generated account number and the store-generated row id are taken as
parameters.  Modelled from the spec: the created account's `status` column
is filled by a Prisma schema default (the schema file is not part of the
sources); per the spec's account lifecycle a newly created account is
operable, so the default is taken to be `active`. -/
def createAccount (db : Bank) (customerId accountType branch : String)
    (newId accountNumber : String) (initialDeposit : Int) :
    Except ApiError (Bank × Account) :=
  if customerId = "" ∨ accountType = "" ∨ branch = "" then
    .error .requiredFields
  else if customerId ∉ db.customers then
    .error .customerNotFound
  else
    let account : Account :=
      { id := newId
        accountNumber := accountNumber
        customerId := customerId
        balance := initialDeposit
        availableBalance := initialDeposit
        status := "active" }
    let depositTx : Transaction :=
      { txId := db.nextTxId
        fromAccountId := none
        toAccountId := some newId
        type := "credit"
        amount := initialDeposit
        mode := "cash"
        status := "completed"
        description := some "Initial deposit"
        reference := none
        balanceAfter := initialDeposit
        beneficiaryName := none
        beneficiaryAccount := none
        beneficiaryBank := none
        beneficiaryIfsc := none }
    .ok ({ db with
            accounts := db.accounts ++ [account]
            transactions :=
              if 0 < initialDeposit then db.transactions ++ [depositTx]
              else db.transactions
            nextTxId :=
              if 0 < initialDeposit then db.nextTxId + 1 else db.nextTxId },
         account)

/-- A `GLEntry` row (the columns the GL posting engine reads or writes).
`postingDate` is embedded as an integer day index. -/
structure GLEntry where
  id : String
  entryNumber : String
  accountCode : String
  accountName : String
  type : String
  amount : Int
  description : Option String
  postingDate : Int
  postingStatus : String
  postedBy : Option String
  reversedBy : Option String
  reversalReason : Option String
deriving DecidableEq, Repr, Inhabited

/-- The distinct `AppError` throws of the embedded GL handlers. -/
inductive GLError where
  | entryNotFound
  | entryNotPending
  | entryNotPosted
  | reasonRequired
deriving DecidableEq, Repr, Inhabited

/-- `prisma.gLEntry.findUnique({ where: { id } })`. -/
def findEntry (store : List GLEntry) (id : String) : Option GLEntry :=
  store.find? (fun e => e.id == id)

/-- The row written by `PATCH /api/gl/:id/post`. -/
def postedEntry (e : GLEntry) (actor : String) : GLEntry :=
  { e with postingStatus := "posted", postedBy := some actor }

/-- The row written by `PATCH /api/gl/:id/reverse`. -/
def reversedEntry (e : GLEntry) (actor reason : String) : GLEntry :=
  { e with postingStatus := "reversed", reversedBy := some actor,
           reversalReason := some reason }

/-- `PATCH /api/gl/:id/post` (`routes/gl.ts`): fails when the entry is
missing or not `pending`; otherwise updates it to `posted`, recording the
actor, and returns the updated row. -/
def postGLEntry (store : List GLEntry) (id actor : String) :
    Except GLError (List GLEntry × GLEntry) :=
  match findEntry store id with
  | none => .error .entryNotFound
  | some entry =>
    if entry.postingStatus ≠ "pending" then .error .entryNotPending
    else
      .ok (store.map (fun e => if e.id == id then postedEntry e actor else e),
           postedEntry entry actor)

/-- `PATCH /api/gl/:id/reverse` (`routes/gl.ts`): the reason is checked
first (`if (!reason)`), then the lookup, then the `posted` status check;
on success the entry becomes `reversed`, recording actor and reason. -/
def reverseGLEntry (store : List GLEntry) (id actor reason : String) :
    Except GLError (List GLEntry × GLEntry) :=
  if reason = "" then .error .reasonRequired
  else
    match findEntry store id with
    | none => .error .entryNotFound
    | some entry =>
      if entry.postingStatus ≠ "posted" then .error .entryNotPosted
      else
        .ok (store.map (fun e => if e.id == id then reversedEntry e actor reason else e),
             reversedEntry entry actor reason)

/-- The `updateMany` filter of `POST /api/gl/batch-post`:
`id ∈ entryIds` and `postingStatus = 'pending'`. -/
def batchSelected (entryIds : List String) (e : GLEntry) : Bool :=
  entryIds.contains e.id && e.postingStatus == "pending"

/-- `POST /api/gl/batch-post` (`routes/gl.ts`): one `updateMany` that sets
every listed pending entry to `posted` (recording the actor) and returns
the number of rows it matched.  The only validation is that `entryIds` is
an array, which the embedding's type guarantees. -/
def batchPostGLEntries (store : List GLEntry) (entryIds : List String) (actor : String) :
    List GLEntry × Nat :=
  (store.map (fun e => if batchSelected entryIds e then postedEntry e actor else e),
   (store.filter (batchSelected entryIds)).length)

/-- One row of the trial-balance report. -/
structure TBRow where
  accountCode : String
  accountName : String
  debit : Int
  credit : Int
deriving DecidableEq, Repr, Inhabited

/-- The totals block of the trial-balance report. -/
structure TBTotals where
  debit : Int
  credit : Int
  balanced : Bool
deriving DecidableEq, Repr, Inhabited

/-- The trial-balance report. -/
structure TBReport where
  accounts : List TBRow
  totals : TBTotals
deriving DecidableEq, Repr, Inhabited

/-- The `where` clause of the trial-balance query:
`postingStatus = 'posted'` and `postingDate ≤ asOfDate`. -/
def tbFilter (store : List GLEntry) (asOfDate : Int) : List GLEntry :=
  store.filter (fun e => e.postingStatus == "posted" && decide (e.postingDate ≤ asOfDate))

/-- Sum of the `amount` column over a list of entries. -/
def sumAmounts (l : List GLEntry) : Int :=
  (l.map (fun e => e.amount)).sum

/-- Per-account debit total: the report adds an entry's amount to `debit`
exactly when `entry.type === 'debit'`. -/
def tbDebit (filtered : List GLEntry) (code : String) : Int :=
  sumAmounts (filtered.filter (fun e => e.accountCode == code && e.type == "debit"))

/-- Per-account credit total: every non-`debit` type goes to `credit`
(the source's `else` branch). -/
def tbCredit (filtered : List GLEntry) (code : String) : Int :=
  sumAmounts (filtered.filter (fun e => e.accountCode == code && e.type != "debit"))

/-- Account name shown on a row: the first matching group's name
(`accountMap.set` only on the first occurrence of the code). -/
def tbName (filtered : List GLEntry) (code : String) : String :=
  match filtered.find? (fun e => e.accountCode == code) with
  | some e => e.accountName
  | none => ""

/-- The `accountMap` insertion loop: account codes in first-occurrence
order, without duplicates. -/
def insertCode (acc : List String) (c : String) : List String :=
  if acc.contains c then acc else acc ++ [c]

/-- The distinct account codes of the filtered entries, in
first-occurrence order. -/
def tbCodes (filtered : List GLEntry) : List String :=
  (filtered.map (fun e => e.accountCode)).foldl insertCode []

/-- `GET /api/gl/reports/trial-balance` (`routes/gl.ts`): group the
posted, in-date entries by account code, sum debit and credit amounts per
code, and compute the global totals and the `balanced` flag
(`totalDebits === totalCredits`).  A pure read: the store is not part of
the result. -/
def trialBalance (store : List GLEntry) (asOfDate : Int) : TBReport :=
  let filtered := tbFilter store asOfDate
  let accounts := (tbCodes filtered).map (fun c =>
    { accountCode := c
      accountName := tbName filtered c
      debit := tbDebit filtered c
      credit := tbCredit filtered c : TBRow })
  let totalDebits := (accounts.map (fun a => a.debit)).sum
  let totalCredits := (accounts.map (fun a => a.credit)).sum
  { accounts := accounts
    totals := { debit := totalDebits, credit := totalCredits,
                balanced := totalDebits == totalCredits } }


/-- `abDelta a d` is the row written by a balance/availableBalance
increment of `d`. -/
def abDelta (a : Account) (d : Int) : Account :=
  { a with balance := a.balance + d, availableBalance := a.availableBalance + d }

/-- The account invariant stated by the specification: a non-negative
spendable balance never exceeding the ledger balance (which is then
non-negative as well). -/
def accInvariant (a : Account) : Prop :=
  0 ≤ a.availableBalance ∧ a.availableBalance ≤ a.balance

/-- The invariant over a whole database state. -/
def bankInvariant (db : Bank) : Prop :=
  ∀ a ∈ db.accounts, accInvariant a

instance accInvariantDecidable (a : Account) : Decidable (accInvariant a) :=
  inferInstanceAs (Decidable (_ ∧ _))

instance bankInvariantDecidable (db : Bank) : Decidable (bankInvariant db) :=
  inferInstanceAs (Decidable (∀ a ∈ db.accounts, accInvariant a))

/-! ### Concrete fixtures used by witnesses and counterexamples -/

/-- A funded active account. -/
def accX : Account :=
  { id := "acc-1", accountNumber := "100100001001", customerId := "cust-1",
    balance := 1000, availableBalance := 800, status := "active" }

/-- A second active account. -/
def accY : Account :=
  { id := "acc-2", accountNumber := "100100001002", customerId := "cust-2",
    balance := 50, availableBalance := 50, status := "active" }

/-- An active account holding nothing. -/
def accZ : Account :=
  { id := "acc-3", accountNumber := "100100001003", customerId := "cust-2",
    balance := 0, availableBalance := 0, status := "active" }

/-- A small database with the three accounts above. -/
def bankXY : Bank :=
  { customers := ["cust-1", "cust-2"], accounts := [accX, accY, accZ],
    transactions := [], nextTxId := 7 }

/-- A concrete successful internal transfer used by witnesses. -/
def wInternal := transferInternal bankXY "acc-1" "acc-2" (AmountInput.num 30) "funds"

def wBank1 : Bank :=
  match wInternal with
  | .ok (b, _, _) => b
  | .error _ => default

def wDebitTx : Transaction :=
  match wInternal with
  | .ok (_, t, _) => t
  | .error _ => default

def wCreditTx : Transaction :=
  match wInternal with
  | .ok (_, _, t) => t
  | .error _ => default

/-- A concrete account creation used by witnesses. -/
def wCreate := createAccount bankXY "cust-2" "savings" "MAIN_BRANCH" "acc-4" "100100001004" 500

def wBank2 : Bank :=
  match wCreate with
  | .ok (b, _) => b
  | .error _ => default

/-- A pending GL entry. -/
def glP1 : GLEntry :=
  { id := "gl-1", entryNumber := "GL000001", accountCode := "1001",
    accountName := "Cash in Hand", type := "debit", amount := 100,
    description := none, postingDate := 1, postingStatus := "pending",
    postedBy := none, reversedBy := none, reversalReason := none }

/-- A posted GL entry. -/
def glP2 : GLEntry :=
  { glP1 with
    id := "gl-2"
    entryNumber := "GL000002"
    accountCode := "2001"
    accountName := "Customer Deposits"
    type := "credit"
    postingStatus := "posted" }

/-- A store with one pending and one posted entry. -/
def glStoreA : List GLEntry := [glP1, glP2]

/-- Posting the pending entry of `glStoreA`. -/
def wPost := postGLEntry glStoreA "gl-1" "admin"

def wGlStore1 : List GLEntry :=
  match wPost with
  | .ok (s, _) => s
  | .error _ => glStoreA

/-- Posted entries for the trial-balance witnesses. -/
def glQ1 : GLEntry := { glP1 with postingStatus := "posted" }

def glQ3 : GLEntry :=
  { glP1 with
    id := "gl-3"
    entryNumber := "GL000003"
    amount := 40
    postingDate := 3
    postingStatus := "posted" }

/-- A store with two posted in-date entries, one posted future entry. -/
def glStoreB : List GLEntry := [glQ1, glP2, glQ3]

/-! ### Helper lemmas about keyed row updates -/

/-- Updating exactly the rows matched by `p` with a `p`-preserving `g`
commutes with `find? p`. -/
theorem find?_map_update {α : Type} (p : α → Bool) (g : α → α)
    (hg : ∀ a, p (g a) = p a) (l : List α) :
    (l.map (fun a => if p a then g a else a)).find? p = (l.find? p).map g := by
  induction l with
  | nil => rfl
  | cons a l ih =>
    by_cases h : p a = true
    · rw [List.map_cons, if_pos h, List.find?_cons_of_pos _ ((hg a).trans h),
        List.find?_cons_of_pos _ h, Option.map_some']
    · rw [List.map_cons, if_neg h, List.find?_cons_of_neg _ h,
        List.find?_cons_of_neg _ h, ih]

/-- Updating only the rows matched by `p` does not disturb a `find?` by a
predicate `q` that is disjoint from `p` and preserved by `g`. -/
theorem find?_map_update_other {α : Type} (p q : α → Bool) (g : α → α)
    (hq : ∀ a, q (g a) = q a) (hdisj : ∀ a, p a = true → q a = false) (l : List α) :
    (l.map (fun a => if p a then g a else a)).find? q = l.find? q := by
  induction l with
  | nil => rfl
  | cons a l ih =>
    by_cases h : p a = true
    · have hqa : q a = false := hdisj a h
      rw [List.map_cons, if_pos h,
        List.find?_cons_of_neg _ (by rw [hq a, hqa]; exact Bool.false_ne_true),
        List.find?_cons_of_neg _ (by rw [hqa]; exact Bool.false_ne_true), ih]
    · by_cases h2 : q a = true
      · rw [List.map_cons, if_neg h, List.find?_cons_of_pos _ h2,
          List.find?_cons_of_pos _ h2]
      · rw [List.map_cons, if_neg h, List.find?_cons_of_neg _ h2,
          List.find?_cons_of_neg _ h2, ih]

/-- In a list whose keys are distinct (the database's unique-id
constraint), looking up any member's key finds that member. -/
theorem find?_key_of_nodup {α : Type} (key : α → String) (l : List α)
    (h : (l.map key).Nodup) {a : α} (ha : a ∈ l) :
    l.find? (fun b => key b == key a) = some a := by
  induction l with
  | nil => cases ha
  | cons b l ih =>
    rcases List.mem_cons.mp ha with rfl | ha'
    · exact List.find?_cons_of_pos _ (by simp)
    · have hb : key b ∉ l.map key := (List.nodup_cons.mp h).1
      have hne : ¬ key b = key a :=
        fun he => hb (he ▸ List.mem_map_of_mem key ha')
      rw [List.find?_cons_of_neg _ (by simpa using hne)]
      exact ih (List.nodup_cons.mp h).2 ha'

/-! ### Helper lemmas about the trial-balance grouping -/

theorem mem_insertCode {acc : List String} {c x : String} :
    x ∈ insertCode acc c ↔ x ∈ acc ∨ x = c := by
  unfold insertCode
  by_cases h : acc.contains c = true
  · have hc : c ∈ acc := by simpa using h
    rw [if_pos h]
    constructor
    · exact Or.inl
    · rintro (hx | rfl)
      exacts [hx, hc]
  · rw [if_neg h]
    simp [List.mem_append]

theorem nodup_insertCode {acc : List String} (h : acc.Nodup) (c : String) :
    (insertCode acc c).Nodup := by
  unfold insertCode
  by_cases hc : acc.contains c = true
  · rw [if_pos hc]
    exact h
  · have hc' : c ∉ acc := by simpa using hc
    rw [if_neg hc]
    simp [List.nodup_append, h, hc']

theorem mem_foldl_insertCode (l : List String) :
    ∀ acc x, x ∈ l.foldl insertCode acc ↔ x ∈ acc ∨ x ∈ l := by
  induction l with
  | nil => simp
  | cons c l ih =>
    intro acc x
    rw [List.foldl_cons, ih, mem_insertCode, List.mem_cons]
    tauto

theorem nodup_foldl_insertCode (l : List String) :
    ∀ acc, acc.Nodup → (l.foldl insertCode acc).Nodup := by
  induction l with
  | nil => exact fun _ h => h
  | cons c l ih => exact fun acc h => ih _ (nodup_insertCode h c)

theorem tbCodes_nodup (filtered : List GLEntry) : (tbCodes filtered).Nodup :=
  nodup_foldl_insertCode _ _ List.nodup_nil

theorem mem_tbCodes_iff {filtered : List GLEntry} {c : String} :
    c ∈ tbCodes filtered ↔ c ∈ filtered.map (fun e => e.accountCode) := by
  unfold tbCodes
  rw [mem_foldl_insertCode]
  simp

theorem sumAmounts_filter_cons (p : GLEntry → Bool) (e : GLEntry) (l : List GLEntry) :
    sumAmounts ((e :: l).filter p)
      = (if p e then e.amount else 0) + sumAmounts (l.filter p) := by
  by_cases h : p e <;> simp [List.filter_cons, h, sumAmounts]

/-- Splitting a filter over a head code and the remaining codes, when the
head code is not among them. -/
theorem sumAmounts_filter_split (c : String) (cs : List String) (hc : c ∉ cs)
    (ty : GLEntry → Bool) (l : List GLEntry) :
    sumAmounts (l.filter (fun e => (e.accountCode == c || cs.contains e.accountCode) && ty e))
      = sumAmounts (l.filter (fun e => e.accountCode == c && ty e))
        + sumAmounts (l.filter (fun e => cs.contains e.accountCode && ty e)) := by
  induction l with
  | nil => simp [sumAmounts]
  | cons e l ih =>
    rw [sumAmounts_filter_cons, sumAmounts_filter_cons, sumAmounts_filter_cons, ih]
    by_cases h1 : e.accountCode = c
    · have h2 : e.accountCode ∉ cs := fun hm => hc (h1 ▸ hm)
      by_cases h3 : ty e = true <;> simp [h1, h2, h3, hc] <;> try ring
    · by_cases h2 : e.accountCode ∈ cs <;> by_cases h3 : ty e = true <;>
        simp [h1, h2, h3, hc] <;> try ring

/-- Summing the per-code totals over a duplicate-free code list equals the
total over all entries whose code is listed. -/
theorem sum_partition (ty : GLEntry → Bool) (l : List GLEntry) :
    ∀ codes : List String, codes.Nodup →
      ((codes.map (fun c =>
          sumAmounts (l.filter (fun e => e.accountCode == c && ty e)))).sum)
        = sumAmounts (l.filter (fun e => codes.contains e.accountCode && ty e)) := by
  intro codes
  induction codes with
  | nil => intro _; simp [sumAmounts]
  | cons c cs ih =>
    intro hnd
    rcases List.nodup_cons.mp hnd with ⟨hc, hcs⟩
    rw [List.map_cons, List.sum_cons, ih hcs]
    rw [show (fun e => (c :: cs).contains e.accountCode && ty e)
          = (fun e => (e.accountCode == c || cs.contains e.accountCode) && ty e) by
        funext e
        rw [List.contains_cons]]
    exact (sumAmounts_filter_split c cs hc ty l).symm

/-! ### Consequences for account updates -/

theorem findAccount_applyDelta_same (l : List Account) (x : String) (d : Int) :
    findAccount (applyDelta l x d) x = (findAccount l x).map (fun a => abDelta a d) := by
  have h := find?_map_update (fun a : Account => a.id == x) (fun a => abDelta a d)
    (fun a => rfl) l
  simpa [findAccount, applyDelta, abDelta] using h

theorem findAccount_applyDelta_other (l : List Account) {x y : String} (h : y ≠ x)
    (d : Int) :
    findAccount (applyDelta l x d) y = findAccount l y := by
  have hmain := find?_map_update_other (fun a : Account => a.id == x)
    (fun a : Account => a.id == y) (fun a => abDelta a d) (fun a => rfl)
    (fun a ha => ?_) l
  · simpa [findAccount, applyDelta, abDelta] using hmain
  · have hax : a.id = x := by simpa using ha
    simp [hax]
    exact fun he => h he.symm

theorem findAccount_of_nodup {l : List Account} (h : (l.map (fun a => a.id)).Nodup)
    {a : Account} (ha : a ∈ l) : findAccount l a.id = some a := by
  have := find?_key_of_nodup (fun b : Account => b.id) l h ha
  simpa [findAccount] using this

/-! ### Consequences for GL entry updates -/

theorem findEntry_map_update (store : List GLEntry) (id : String) (g : GLEntry → GLEntry)
    (hg : ∀ e, (g e).id = e.id) :
    findEntry (store.map (fun e => if e.id == id then g e else e)) id
      = (findEntry store id).map g := by
  unfold findEntry
  exact find?_map_update _ _ (fun e => by rw [hg]) store

/-- Every row of a batch-post result fails the batch filter: it is either
freshly `posted` or was not selected in the first place. -/
theorem batchSelected_after_batchPost (store : List GLEntry) (ids : List String)
    (actor : String) :
    ∀ e' ∈ (batchPostGLEntries store ids actor).1, batchSelected ids e' = false := by
  intro e' he'
  rcases List.mem_map.mp he' with ⟨e, _, rfl⟩
  by_cases hsel : batchSelected ids e = true
  · have hand := hsel
    unfold batchSelected at hand
    rw [Bool.and_eq_true] at hand
    have hmem : e.id ∈ ids := by simpa using hand.1
    have hpend : e.postingStatus = "pending" := by simpa using hand.2
    simp [batchSelected, postedEntry, hmem, hpend]
  · have hsel' : batchSelected ids e = false := by simpa using hsel
    rw [if_neg hsel]
    exact hsel'

/-- Inversion of a successful `post`: the entry existed and was pending,
and the store and the returned row are the posted updates. -/
theorem postGLEntry_ok_elim {store : List GLEntry} {id actor : String}
    {st' : List GLEntry} {e' : GLEntry}
    (h : postGLEntry store id actor = .ok (st', e')) :
    ∃ e, findEntry store id = some e ∧ e.postingStatus = "pending" ∧
      st' = store.map (fun x => if x.id == id then postedEntry x actor else x) ∧
      e' = postedEntry e actor := by
  unfold postGLEntry at h
  cases hfind : findEntry store id with
  | none => rw [hfind] at h; cases h
  | some e =>
    rw [hfind] at h
    dsimp only at h
    by_cases hst : e.postingStatus = "pending"
    · rw [if_neg (fun hne => hne hst)] at h
      obtain ⟨h1, h2⟩ := Prod.mk.injEq .. ▸ Except.ok.inj h
      exact ⟨e, rfl, hst, h1.symm, h2.symm⟩
    · rw [if_pos hst] at h
      cases h

/-- `post` on an existing entry that is not pending fails with the
invalid-state error. -/
theorem postGLEntry_not_pending {store : List GLEntry} {id actor : String}
    {e : GLEntry} (hfind : findEntry store id = some e)
    (hst : e.postingStatus ≠ "pending") :
    postGLEntry store id actor = .error .entryNotPending := by
  unfold postGLEntry
  rw [hfind]
  dsimp only
  rw [if_pos hst]

/-- Inversion of a successful `reverse`: the reason was non-empty, the
entry existed and was posted. -/
theorem reverseGLEntry_ok_elim {store : List GLEntry} {id actor reason : String}
    {st' : List GLEntry} {e' : GLEntry}
    (h : reverseGLEntry store id actor reason = .ok (st', e')) :
    reason ≠ "" ∧ ∃ e, findEntry store id = some e ∧ e.postingStatus = "posted" ∧
      st' = store.map (fun x => if x.id == id then reversedEntry x actor reason else x) ∧
      e' = reversedEntry e actor reason := by
  unfold reverseGLEntry at h
  by_cases hr : reason = ""
  · rw [if_pos hr] at h
    cases h
  · rw [if_neg hr] at h
    refine ⟨hr, ?_⟩
    cases hfind : findEntry store id with
    | none => rw [hfind] at h; cases h
    | some e =>
      rw [hfind] at h
      dsimp only at h
      by_cases hst : e.postingStatus = "posted"
      · rw [if_neg (fun hne => hne hst)] at h
        obtain ⟨h1, h2⟩ := Prod.mk.injEq .. ▸ Except.ok.inj h
        exact ⟨e, rfl, hst, h1.symm, h2.symm⟩
      · rw [if_pos hst] at h
        cases h

/-- `reverse` with a non-empty reason on an existing entry that is not
posted fails with the invalid-state error. -/
theorem reverseGLEntry_not_posted {store : List GLEntry} {id actor reason : String}
    {e : GLEntry} (hr : reason ≠ "") (hfind : findEntry store id = some e)
    (hst : e.postingStatus ≠ "posted") :
    reverseGLEntry store id actor reason = .error .entryNotPosted := by
  unfold reverseGLEntry
  rw [if_neg hr, hfind]
  dsimp only
  rw [if_pos hst]

/-- C5: the GL posting status is monotonic along
pending → posted → reversed.  `post` succeeds only from `pending` (a
successful post found a pending entry and returns it as `posted`; posting
the same entry a second time fails with the invalid-state error
`entryNotPending`), `reverse` succeeds only from `posted`, and `reverse`
with an empty reason fails with `reasonRequired` before any lookup (an
error result carries no state change in the embedding). -/
theorem gl_posting_status_monotonic :
    (∀ store id actor st' e', postGLEntry store id actor = .ok (st', e') →
        ∃ e, findEntry store id = some e ∧ e.postingStatus = "pending" ∧
          e' = postedEntry e actor)
    ∧ (∀ store id actor (e : GLEntry), findEntry store id = some e →
        e.postingStatus ≠ "pending" →
        postGLEntry store id actor = .error .entryNotPending)
    ∧ (∀ store id a1 a2 st' e', postGLEntry store id a1 = .ok (st', e') →
        postGLEntry st' id a2 = .error .entryNotPending)
    ∧ (∀ store id actor reason st' e',
        reverseGLEntry store id actor reason = .ok (st', e') →
        ∃ e, findEntry store id = some e ∧ e.postingStatus = "posted" ∧
          e' = reversedEntry e actor reason)
    ∧ (∀ store id actor reason (e : GLEntry), reason ≠ "" →
        findEntry store id = some e → e.postingStatus ≠ "posted" →
        reverseGLEntry store id actor reason = .error .entryNotPosted)
    ∧ (∀ store id actor, reverseGLEntry store id actor "" = .error .reasonRequired) := by
  refine ⟨?_, ?_, ?_, ?_, ?_, ?_⟩
  · intro store id actor st' e' h
    obtain ⟨e, hf, hp, _, he'⟩ := postGLEntry_ok_elim h
    exact ⟨e, hf, hp, he'⟩
  · intro store id actor e hf hst
    exact postGLEntry_not_pending hf hst
  · intro store id a1 a2 st' e' h
    obtain ⟨e, hf, _, hst', _⟩ := postGLEntry_ok_elim h
    have hfind' : findEntry st' id = some (postedEntry e a1) := by
      rw [hst', findEntry_map_update store id (fun x => postedEntry x a1) (fun _ => rfl),
        hf, Option.map_some']
    exact postGLEntry_not_pending hfind' (by simp [postedEntry])
  · intro store id actor reason st' e' h
    obtain ⟨_, e, hf, hp, _, he'⟩ := reverseGLEntry_ok_elim h
    exact ⟨e, hf, hp, he'⟩
  · intro store id actor reason e hr hf hst
    exact reverseGLEntry_not_posted hr hf hst
  · intro store id actor
    unfold reverseGLEntry
    rw [if_pos rfl]

/-- Witness for C5: in the two-entry store, posting the freshly posted
`gl-1` a second time fails with the invalid-state error, reversing with
an empty reason fails with the missing-reason error, and reversing the
still-pending entry fails with the invalid-state error. -/
theorem gl_posting_status_monotonic_witness :
    postGLEntry wGlStore1 "gl-1" "mgr" = .error .entryNotPending
    ∧ reverseGLEntry glStoreA "gl-2" "mgr" "" = .error .reasonRequired
    ∧ reverseGLEntry glStoreA "gl-1" "mgr" "duplicate" = .error .entryNotPosted :=
  ⟨gl_posting_status_monotonic.2.2.1 glStoreA "gl-1" "admin" "mgr" wGlStore1
      (postedEntry glP1 "admin") rfl,
   gl_posting_status_monotonic.2.2.2.2.2 glStoreA "gl-2" "mgr",
   gl_posting_status_monotonic.2.2.2.2.1 glStoreA "gl-1" "mgr" "duplicate" glP1
      (by decide) rfl (by decide)⟩

/-- C7: batch posting transitions exactly the listed pending entries,
leaves missing or non-pending entries untouched, never raises an error
for a mixed batch (it is a total function), returns the number of rows
actually transitioned, and a repeated call transitions nothing further. -/
theorem batchPost_partial_success :
    (∀ store ids actor (e : GLEntry), e ∈ store → e.id ∈ ids →
        e.postingStatus = "pending" →
        postedEntry e actor ∈ (batchPostGLEntries store ids actor).1)
    ∧ (∀ store ids actor (e : GLEntry), e ∈ store →
        ¬(e.id ∈ ids ∧ e.postingStatus = "pending") →
        e ∈ (batchPostGLEntries store ids actor).1)
    ∧ (∀ store ids actor,
        (batchPostGLEntries store ids actor).2
          = (store.filter (fun e =>
              decide (e.id ∈ ids) && decide (e.postingStatus = "pending"))).length)
    ∧ (∀ store ids a1 a2,
        batchPostGLEntries (batchPostGLEntries store ids a1).1 ids a2
          = ((batchPostGLEntries store ids a1).1, 0)) := by
  have hsel_eq : ∀ (ids : List String),
      batchSelected ids = (fun e =>
        decide (e.id ∈ ids) && decide (e.postingStatus = "pending")) := by
    intro ids
    funext e
    by_cases h1 : e.id ∈ ids <;> by_cases h2 : e.postingStatus = "pending" <;>
      simp [batchSelected, h1, h2]
  refine ⟨?_, ?_, ?_, ?_⟩
  · intro store ids actor e he hid hp
    refine List.mem_map.mpr ⟨e, he, ?_⟩
    rw [if_pos]
    rw [hsel_eq]
    simp [hid, hp]
  · intro store ids actor e he hnot
    refine List.mem_map.mpr ⟨e, he, ?_⟩
    rw [if_neg]
    rw [hsel_eq]
    simp only [Bool.and_eq_true, decide_eq_true_eq]
    exact fun hc => hnot ⟨hc.1, hc.2⟩
  · intro store ids actor
    unfold batchPostGLEntries
    rw [hsel_eq]
  · intro store ids a1 a2
    have hall := batchSelected_after_batchPost store ids a1
    have h1 : (batchPostGLEntries (batchPostGLEntries store ids a1).1 ids a2).1
        = (batchPostGLEntries store ids a1).1 := by
      show ((batchPostGLEntries store ids a1).1.map _) = _
      rw [List.map_congr_left (fun e' he' => if_neg (by rw [hall e' he']; exact
        Bool.false_ne_true))]
      simp
    have h2 : (batchPostGLEntries (batchPostGLEntries store ids a1).1 ids a2).2 = 0 := by
      show ((batchPostGLEntries store ids a1).1.filter (batchSelected ids)).length = 0
      rw [List.filter_eq_nil_iff.mpr (fun e' he' => by rw [hall e' he']; exact
        Bool.false_ne_true)]
      rfl
    calc batchPostGLEntries (batchPostGLEntries store ids a1).1 ids a2
        = ((batchPostGLEntries (batchPostGLEntries store ids a1).1 ids a2).1,
           (batchPostGLEntries (batchPostGLEntries store ids a1).1 ids a2).2) := rfl
      _ = ((batchPostGLEntries store ids a1).1, 0) := by rw [h1, h2]

/-- Witness for C7: over a store holding one pending entry (`gl-1`) and
one posted entry (`gl-2`), a batch listing both plus a missing id posts
only `gl-1`, returns count 1, and a second identical batch changes
nothing and returns count 0. -/
theorem batchPost_partial_success_witness :
    postedEntry glP1 "admin"
        ∈ (batchPostGLEntries glStoreA ["gl-1", "gl-2", "gl-miss"] "admin").1
    ∧ glP2 ∈ (batchPostGLEntries glStoreA ["gl-1", "gl-2", "gl-miss"] "admin").1
    ∧ (batchPostGLEntries glStoreA ["gl-1", "gl-2", "gl-miss"] "admin").2 = 1
    ∧ batchPostGLEntries
        (batchPostGLEntries glStoreA ["gl-1", "gl-2", "gl-miss"] "admin").1
        ["gl-1", "gl-2", "gl-miss"] "mgr"
      = ((batchPostGLEntries glStoreA ["gl-1", "gl-2", "gl-miss"] "admin").1, 0) :=
  ⟨batchPost_partial_success.1 glStoreA ["gl-1", "gl-2", "gl-miss"] "admin" glP1
      (by decide) (by decide) rfl,
   batchPost_partial_success.2.1 glStoreA ["gl-1", "gl-2", "gl-miss"] "admin" glP2
      (by decide) (by decide),
   (batchPost_partial_success.2.2.1 glStoreA ["gl-1", "gl-2", "gl-miss"] "admin").trans
      (by decide),
   batchPost_partial_success.2.2.2 glStoreA ["gl-1", "gl-2", "gl-miss"] "admin" "mgr"⟩

/-- C9: the batch-post result is a function of the *set* of listed ids:
lists with the same members give identical results (same rows, same
count), so duplicated ids neither increase the count nor post an entry
twice; the count is the number of distinct store rows that are pending
and listed. -/
theorem batchPost_depends_on_id_set :
    (∀ store ids1 ids2 actor, (∀ x, x ∈ ids1 ↔ x ∈ ids2) →
        batchPostGLEntries store ids1 actor = batchPostGLEntries store ids2 actor)
    ∧ (∀ store x ids actor,
        batchPostGLEntries store (x :: x :: ids) actor
          = batchPostGLEntries store (x :: ids) actor)
    ∧ (∀ store ids actor,
        (batchPostGLEntries store ids actor).2
          = (store.filter (fun e =>
              decide (e.id ∈ ids) && decide (e.postingStatus = "pending"))).length) := by
  have hext : ∀ store ids1 ids2 actor, (∀ x, x ∈ ids1 ↔ x ∈ ids2) →
      batchPostGLEntries store ids1 actor = batchPostGLEntries store ids2 actor := by
    intro store ids1 ids2 actor hiff
    have hsel : batchSelected ids1 = batchSelected ids2 := by
      funext e
      by_cases h : e.id ∈ ids1
      · have h2 := (hiff e.id).mp h
        simp [batchSelected, h, h2]
      · have h2 : e.id ∉ ids2 := fun hm => h ((hiff e.id).mpr hm)
        simp [batchSelected, h, h2]
    unfold batchPostGLEntries
    rw [hsel]
  have hcount : ∀ store ids actor,
      (batchPostGLEntries store ids actor).2
        = (store.filter (fun e =>
            decide (e.id ∈ ids) && decide (e.postingStatus = "pending"))).length := by
    intro store ids actor
    have hsel_eq : batchSelected ids = (fun e =>
        decide (e.id ∈ ids) && decide (e.postingStatus = "pending")) := by
      funext e
      by_cases h1 : e.id ∈ ids <;> by_cases h2 : e.postingStatus = "pending" <;>
        simp [batchSelected, h1, h2]
    unfold batchPostGLEntries
    rw [hsel_eq]
  exact ⟨hext,
    fun store x ids actor => hext store (x :: x :: ids) (x :: ids) actor
      (fun y => by simp [List.mem_cons]),
    hcount⟩

/-- Witness for C9: listing the pending entry twice gives the same result
(and the same count 1) as listing it once, and reordering the id list
changes nothing. -/
theorem batchPost_depends_on_id_set_witness :
    batchPostGLEntries glStoreA ["gl-1", "gl-1", "gl-2"] "admin"
        = batchPostGLEntries glStoreA ["gl-1", "gl-2"] "admin"
    ∧ batchPostGLEntries glStoreA ["gl-2", "gl-1"] "admin"
        = batchPostGLEntries glStoreA ["gl-1", "gl-2"] "admin"
    ∧ (batchPostGLEntries glStoreA ["gl-1", "gl-1", "gl-2"] "admin").2 = 1 :=
  ⟨batchPost_depends_on_id_set.2.1 glStoreA "gl-1" ["gl-2"] "admin",
   batchPost_depends_on_id_set.1 glStoreA ["gl-2", "gl-1"] ["gl-1", "gl-2"] "admin"
      (fun y => by simp only [List.mem_cons, List.not_mem_nil, or_false]; tauto),
   (batchPost_depends_on_id_set.2.2 glStoreA ["gl-1", "gl-1", "gl-2"] "admin").trans
      (by decide)⟩

/-- Dropping a conjunct that holds on every element of the list. -/
theorem filter_and_of_all {α : Type} {l : List α} {p q : α → Bool}
    (h : ∀ e ∈ l, p e = true) : l.filter (fun e => p e && q e) = l.filter q := by
  induction l with
  | nil => rfl
  | cons e l ih =>
    have hp := h e (List.mem_cons_self e l)
    have ih' := ih (fun x hx => h x (List.mem_cons_of_mem e hx))
    by_cases hq : q e = true <;> simp [List.filter_cons, hp, hq, ih']

/-- C6: the trial balance aggregates exactly the entries with
`postingStatus = posted` and `postingDate ≤ asOfDate` (the `tbFilter`
selection): it produces one row per distinct account code of the
selected entries, each row carrying that code's debit and credit sums;
the global totals are the debit and credit sums over all selected
entries; and the `balanced` flag is set exactly when the two totals are
equal.  `trialBalance` is a pure function of the store — no entry is
mutated. -/
theorem trialBalance_spec (store : List GLEntry) (asOfDate : Int) :
    ((trialBalance store asOfDate).accounts.map (fun r => r.accountCode)).Nodup
    ∧ (∀ c, c ∈ (trialBalance store asOfDate).accounts.map (fun r => r.accountCode) ↔
          c ∈ (tbFilter store asOfDate).map (fun e => e.accountCode))
    ∧ (∀ r ∈ (trialBalance store asOfDate).accounts,
        r.debit = sumAmounts ((tbFilter store asOfDate).filter
            (fun e => e.accountCode == r.accountCode && e.type == "debit"))
        ∧ r.credit = sumAmounts ((tbFilter store asOfDate).filter
            (fun e => e.accountCode == r.accountCode && e.type != "debit")))
    ∧ (trialBalance store asOfDate).totals.debit
        = sumAmounts ((tbFilter store asOfDate).filter (fun e => e.type == "debit"))
    ∧ (trialBalance store asOfDate).totals.credit
        = sumAmounts ((tbFilter store asOfDate).filter (fun e => e.type != "debit"))
    ∧ ((trialBalance store asOfDate).totals.balanced = true ↔
        (trialBalance store asOfDate).totals.debit
          = (trialBalance store asOfDate).totals.credit) := by
  have hacc : (trialBalance store asOfDate).accounts
      = (tbCodes (tbFilter store asOfDate)).map (fun c =>
          { accountCode := c
            accountName := tbName (tbFilter store asOfDate) c
            debit := tbDebit (tbFilter store asOfDate) c
            credit := tbCredit (tbFilter store asOfDate) c : TBRow }) := rfl
  have hmap : (trialBalance store asOfDate).accounts.map (fun r => r.accountCode)
      = tbCodes (tbFilter store asOfDate) := by
    rw [hacc, List.map_map]
    exact List.map_id _
  have hcov : ∀ e ∈ tbFilter store asOfDate,
      ((tbCodes (tbFilter store asOfDate)).contains e.accountCode) = true := by
    intro e he
    have : e.accountCode ∈ tbCodes (tbFilter store asOfDate) :=
      mem_tbCodes_iff.mpr (List.mem_map_of_mem _ he)
    simpa using this
  refine ⟨?_, ?_, ?_, ?_, ?_, ?_⟩
  · rw [hmap]
    exact tbCodes_nodup _
  · intro c
    rw [hmap, mem_tbCodes_iff]
  · intro r hr
    rw [hacc] at hr
    have hr' := hr
    obtain ⟨c, _, rfl⟩ := List.mem_map.mp hr'
    exact ⟨rfl, rfl⟩
  · have hd : (trialBalance store asOfDate).totals.debit
        = ((tbCodes (tbFilter store asOfDate)).map (fun c =>
            sumAmounts ((tbFilter store asOfDate).filter
              (fun e => e.accountCode == c && e.type == "debit")))).sum := by
      have h1 : (trialBalance store asOfDate).totals.debit
          = ((trialBalance store asOfDate).accounts.map (fun r => r.debit)).sum := rfl
      rw [h1, hacc, List.map_map]
      rfl
    rw [hd, sum_partition (fun e => e.type == "debit") (tbFilter store asOfDate)
      (tbCodes (tbFilter store asOfDate)) (tbCodes_nodup _)]
    exact congrArg sumAmounts (filter_and_of_all hcov)
  · have hc : (trialBalance store asOfDate).totals.credit
        = ((tbCodes (tbFilter store asOfDate)).map (fun c =>
            sumAmounts ((tbFilter store asOfDate).filter
              (fun e => e.accountCode == c && e.type != "debit")))).sum := by
      have h1 : (trialBalance store asOfDate).totals.credit
          = ((trialBalance store asOfDate).accounts.map (fun r => r.credit)).sum := rfl
      rw [h1, hacc, List.map_map]
      rfl
    rw [hc, sum_partition (fun e => e.type != "debit") (tbFilter store asOfDate)
      (tbCodes (tbFilter store asOfDate)) (tbCodes_nodup _)]
    exact congrArg sumAmounts (filter_and_of_all hcov)
  · have hb : (trialBalance store asOfDate).totals.balanced
        = ((trialBalance store asOfDate).totals.debit
            == (trialBalance store asOfDate).totals.credit) := by
      simp [trialBalance]
    rw [hb]
    exact beq_iff_eq

/-- Witness for C6 over a store with two posted in-date entries (debit
100 on account 1001, credit 100 on account 2001) and one posted entry
dated after the report: the row codes are duplicate-free, the 1001 row's
sums match the selected entries, the totals both evaluate to 100, and
`balanced` is set exactly when the totals agree. -/
theorem trialBalance_spec_witness :
    ((trialBalance glStoreB 2).accounts.map (fun r => r.accountCode)).Nodup
    ∧ ((⟨"1001", "Cash in Hand", 100, 0⟩ : TBRow).debit
        = sumAmounts ((tbFilter glStoreB 2).filter
            (fun e => e.accountCode == (⟨"1001", "Cash in Hand", 100, 0⟩ : TBRow).accountCode
              && e.type == "debit")))
    ∧ (trialBalance glStoreB 2).totals.debit = 100
    ∧ (trialBalance glStoreB 2).totals.credit = 100
    ∧ ((trialBalance glStoreB 2).totals.balanced = true ↔
        (trialBalance glStoreB 2).totals.debit = (trialBalance glStoreB 2).totals.credit) :=
  ⟨(trialBalance_spec glStoreB 2).1,
   ((trialBalance_spec glStoreB 2).2.2.1 ⟨"1001", "Cash in Hand", 100, 0⟩ (by decide)).1,
   ((trialBalance_spec glStoreB 2).2.2.2.1).trans (by decide),
   ((trialBalance_spec glStoreB 2).2.2.2.2.1).trans (by decide),
   (trialBalance_spec glStoreB 2).2.2.2.2.2⟩

/-- C10: when no entry is posted with a posting date at or before
`asOfDate`, the trial balance is the empty report: no account rows,
zero totals, and `balanced = true` (vacuously, since `0 == 0`), not an
error. -/
theorem trialBalance_empty (store : List GLEntry) (asOfDate : Int)
    (h : ∀ e ∈ store, ¬(e.postingStatus = "posted" ∧ e.postingDate ≤ asOfDate)) :
    trialBalance store asOfDate
      = { accounts := [], totals := { debit := 0, credit := 0, balanced := true } } := by
  have hf : tbFilter store asOfDate = [] := by
    unfold tbFilter
    refine List.filter_eq_nil_iff.mpr ?_
    intro e he hc
    exact h e he (by simpa using hc)
  unfold trialBalance
  rw [hf]
  rfl

/-- Witness for C10: a store holding only a pending entry yields the
empty, vacuously balanced report. -/
theorem trialBalance_empty_witness :
    trialBalance [glP1] 10
      = { accounts := [], totals := { debit := 0, credit := 0, balanced := true } } :=
  trialBalance_empty [glP1] 10 (by decide)

/-- Inversion of a successful internal transfer: all validations passed
and the successor accounts are the debit of the source followed by the
credit of the destination. -/
theorem transferInternal_ok_elim {db : Bank} {f t : String} {amount : AmountInput}
    {desc : String} {db' : Bank} {r1 r2 : Transaction}
    (h : transferInternal db f t amount desc = .ok (db', r1, r2)) :
    ∃ (A B : Account) (m : Int), findAccount db.accounts f = some A
      ∧ findAccount db.accounts t = some B
      ∧ f ≠ t ∧ A.status = "active" ∧ B.status = "active"
      ∧ amount.toDecimal = some m ∧ ¬ A.availableBalance < m
      ∧ db'.accounts = applyDelta (applyDelta db.accounts f (-m)) t m := by
  unfold transferInternal at h
  by_cases h1 : f = "" ∨ t = "" ∨ amount.truthy = false
  · rw [if_pos h1] at h; cases h
  · rw [if_neg h1] at h
    by_cases h2 : f = t
    · rw [if_pos h2] at h; cases h
    · rw [if_neg h2] at h
      cases hfA : findAccount db.accounts f with
      | none => rw [hfA] at h; dsimp only at h; cases h
      | some A =>
        rw [hfA] at h
        cases hfB : findAccount db.accounts t with
        | none => rw [hfB] at h; dsimp only at h; cases h
        | some B =>
          rw [hfB] at h; dsimp only at h
          by_cases h3 : A.status ≠ "active"
          · rw [if_pos h3] at h; cases h
          · rw [if_neg h3] at h
            by_cases h4 : B.status ≠ "active"
            · rw [if_pos h4] at h; cases h
            · rw [if_neg h4] at h
              cases hdec : amount.toDecimal with
              | none => rw [hdec] at h; dsimp only at h; cases h
              | some m =>
                rw [hdec] at h; dsimp only at h
                by_cases h5 : A.availableBalance < m
                · rw [if_pos h5] at h; cases h
                · rw [if_neg h5] at h
                  refine ⟨A, B, m, rfl, rfl, h2, not_not.mp h3, not_not.mp h4,
                    rfl, h5, ?_⟩
                  obtain ⟨hfst, _⟩ := Prod.mk.injEq .. ▸ Except.ok.inj h
                  rw [← hfst]

/-- Inversion of a successful NEFT transfer. -/
theorem transferNeft_ok_elim {db : Bank} {f ba bn bb bi : String}
    {amount : AmountInput} {desc : String} {db' : Bank} {tx : Transaction}
    (h : transferNeft db f ba bn bb bi amount desc = .ok (db', tx)) :
    ∃ (A : Account) (m : Int), findAccount db.accounts f = some A ∧ A.status = "active"
      ∧ amount.toDecimal = some m ∧ ¬ A.availableBalance < m
      ∧ db'.accounts = applyDelta db.accounts f (-m) := by
  unfold transferNeft at h
  by_cases h1 : f = "" ∨ ba = "" ∨ bn = "" ∨ bi = "" ∨ amount.truthy = false
  · rw [if_pos h1] at h; cases h
  · rw [if_neg h1] at h
    cases hfA : findAccount db.accounts f with
    | none => rw [hfA] at h; dsimp only at h; cases h
    | some A =>
      rw [hfA] at h; dsimp only at h
      by_cases h2 : A.status ≠ "active"
      · rw [if_pos h2] at h; cases h
      · rw [if_neg h2] at h
        cases hdec : amount.toDecimal with
        | none => rw [hdec] at h; dsimp only at h; cases h
        | some m =>
          rw [hdec] at h; dsimp only at h
          by_cases h3 : A.availableBalance < m
          · rw [if_pos h3] at h; cases h
          · rw [if_neg h3] at h
            refine ⟨A, m, rfl, not_not.mp h2, rfl, h3, ?_⟩
            obtain ⟨hfst, _⟩ := Prod.mk.injEq .. ▸ Except.ok.inj h
            rw [← hfst]

/-- Inversion of a successful IMPS transfer. -/
theorem transferImps_ok_elim {db : Bank} {f ba bn bi : String}
    {amount : AmountInput} {desc : String} {db' : Bank} {tx : Transaction}
    (h : transferImps db f ba bn bi amount desc = .ok (db', tx)) :
    ∃ (A : Account) (m : Int), findAccount db.accounts f = some A ∧ A.status = "active"
      ∧ amount.toDecimal = some m ∧ ¬ 500000 < m ∧ ¬ A.availableBalance < m
      ∧ db'.accounts = applyDelta db.accounts f (-m) := by
  unfold transferImps at h
  by_cases h1 : f = "" ∨ ba = "" ∨ bn = "" ∨ bi = "" ∨ amount.truthy = false
  · rw [if_pos h1] at h; cases h
  · rw [if_neg h1] at h
    cases hdec : amount.toDecimal with
    | none => rw [hdec] at h; dsimp only at h; cases h
    | some m =>
      rw [hdec] at h; dsimp only at h
      by_cases h2 : 500000 < m
      · rw [if_pos h2] at h; cases h
      · rw [if_neg h2] at h
        cases hfA : findAccount db.accounts f with
        | none => rw [hfA] at h; dsimp only at h; cases h
        | some A =>
          rw [hfA] at h; dsimp only at h
          by_cases h3 : A.status ≠ "active"
          · rw [if_pos h3] at h; cases h
          · rw [if_neg h3] at h
            by_cases h4 : A.availableBalance < m
            · rw [if_pos h4] at h; cases h
            · rw [if_neg h4] at h
              refine ⟨A, m, rfl, not_not.mp h3, rfl, h2, h4, ?_⟩
              obtain ⟨hfst, _⟩ := Prod.mk.injEq .. ▸ Except.ok.inj h
              rw [← hfst]

/-- Inversion of a successful account creation: the successor account
list appends the new account carrying the initial deposit in both
balance columns. -/
theorem createAccount_ok_elim {db : Bank} {cid ty br nid anum : String} {d : Int}
    {db' : Bank} {acc : Account}
    (h : createAccount db cid ty br nid anum d = .ok (db', acc)) :
    db'.accounts = db.accounts ++
      [{ id := nid, accountNumber := anum, customerId := cid,
         balance := d, availableBalance := d, status := "active" }] := by
  unfold createAccount at h
  by_cases h1 : cid = "" ∨ ty = "" ∨ br = ""
  · rw [if_pos h1] at h; cases h
  · rw [if_neg h1] at h
    by_cases h2 : cid ∉ db.customers
    · rw [if_pos h2] at h; cases h
    · rw [if_neg h2] at h
      obtain ⟨hfst, _⟩ := Prod.mk.injEq .. ▸ Except.ok.inj h
      rw [← hfst]

/-- A guarded single debit (the NEFT/IMPS balance mutation) preserves the
account invariant on every row. -/
theorem applyDelta_debit_invariant {accounts : List Account} {f : String} {m : Int}
    {A : Account} (hinv : ∀ a ∈ accounts, accInvariant a)
    (hnd : (accounts.map (fun a => a.id)).Nodup)
    (hA : findAccount accounts f = some A)
    (hguard : ¬ A.availableBalance < m) :
    ∀ a ∈ applyDelta accounts f (-m), accInvariant a := by
  intro a' ha'
  obtain ⟨a, ha, rfl⟩ := List.mem_map.mp ha'
  by_cases hid : (a.id == f) = true
  · have hidf : a.id = f := by simpa using hid
    have hfa : findAccount accounts f = some a := by
      rw [← hidf]
      exact findAccount_of_nodup hnd ha
    have haA : a = A := Option.some.inj (hfa.symm.trans hA)
    subst haA
    rw [if_pos hid]
    obtain ⟨h1, h2⟩ := hinv a ha
    exact ⟨by dsimp; omega, by dsimp; omega⟩
  · rw [if_neg hid]
    exact hinv a ha

/-- The internal-transfer balance mutations (guarded debit of the source
followed by a credit of the distinct destination) preserve the account
invariant on every row, for a positive amount. -/
theorem applyDelta_transfer_invariant {accounts : List Account} {f t : String}
    {m : Int} {A B : Account} (hinv : ∀ a ∈ accounts, accInvariant a)
    (hnd : (accounts.map (fun a => a.id)).Nodup) (hft : f ≠ t)
    (hA : findAccount accounts f = some A) (hB : findAccount accounts t = some B)
    (hguard : ¬ A.availableBalance < m) (hm : 0 < m) :
    ∀ a ∈ applyDelta (applyDelta accounts f (-m)) t m, accInvariant a := by
  intro a'' ha''
  obtain ⟨a', ha', rfl⟩ := List.mem_map.mp ha''
  obtain ⟨a, ha, rfl⟩ := List.mem_map.mp ha'
  by_cases hidf : (a.id == f) = true
  · have hf : a.id = f := by simpa using hidf
    have hfa : findAccount accounts f = some a := by
      rw [← hf]
      exact findAccount_of_nodup hnd ha
    have haA : a = A := Option.some.inj (hfa.symm.trans hA)
    subst haA
    have hidt : (a.id == t) = false := by simp [hf, hft]
    obtain ⟨h1, h2⟩ := hinv a ha
    refine ⟨?_, ?_⟩ <;> simp [hidf, hidt] <;> omega
  · by_cases hidt : (a.id == t) = true
    · have ht : a.id = t := by simpa using hidt
      have hta : findAccount accounts t = some a := by
        rw [← ht]
        exact findAccount_of_nodup hnd ha
      have haB : a = B := Option.some.inj (hta.symm.trans hB)
      subst haB
      obtain ⟨h1, h2⟩ := hinv a ha
      refine ⟨?_, ?_⟩ <;> simp [hidf, hidt] <;> omega
    · simpa [hidf, hidt] using hinv a ha

/-- C2 (amended): every committed operation preserves the account
invariant `0 ≤ availableBalance ≤ balance`, **provided** the account
creation's initial deposit is non-negative and an internal transfer's
amount is positive; deferred (NEFT) and instant (IMPS) transfers
preserve it for every accepted amount.  Unique account ids (the store's
primary-key constraint) are assumed for the transfer cases. -/
theorem ledger_invariant_preservation :
    (∀ db cid ty br nid anum d db' acc, 0 ≤ d → bankInvariant db →
        createAccount db cid ty br nid anum d = .ok (db', acc) → bankInvariant db')
    ∧ (∀ db f t desc (m : Int) db' r1 r2, 0 < m → bankInvariant db →
        (db.accounts.map (fun a => a.id)).Nodup →
        transferInternal db f t (.num m) desc = .ok (db', r1, r2) → bankInvariant db')
    ∧ (∀ db f ba bn bb bi amount desc db' tx, bankInvariant db →
        (db.accounts.map (fun a => a.id)).Nodup →
        transferNeft db f ba bn bb bi amount desc = .ok (db', tx) → bankInvariant db')
    ∧ (∀ db f ba bn bi amount desc db' tx, bankInvariant db →
        (db.accounts.map (fun a => a.id)).Nodup →
        transferImps db f ba bn bi amount desc = .ok (db', tx) → bankInvariant db') := by
  refine ⟨?_, ?_, ?_, ?_⟩
  · intro db cid ty br nid anum d db' acc hd hinv h
    have hacc := createAccount_ok_elim h
    intro a ha
    rw [hacc] at ha
    rcases List.mem_append.mp ha with ha' | ha'
    · exact hinv a ha'
    · rw [List.mem_singleton.mp ha']
      exact ⟨hd, le_refl d⟩
  · intro db f t desc m db' r1 r2 hm hinv hnd h
    obtain ⟨A, B, m', hA, hB, hft, _, _, hdec, hguard, hacc⟩ := transferInternal_ok_elim h
    have hm' : m' = m := by
      have h' : some m = some m' := hdec
      exact (Option.some.inj h').symm
    subst hm'
    intro a ha
    rw [hacc] at ha
    exact applyDelta_transfer_invariant hinv hnd hft hA hB hguard hm a ha
  · intro db f ba bn bb bi amount desc db' tx hinv hnd h
    obtain ⟨A, m, hA, _, _, hguard, hacc⟩ := transferNeft_ok_elim h
    intro a ha
    rw [hacc] at ha
    exact applyDelta_debit_invariant hinv hnd hA hguard a ha
  · intro db f ba bn bi amount desc db' tx hinv hnd h
    obtain ⟨A, m, hA, _, _, _, hguard, hacc⟩ := transferImps_ok_elim h
    intro a ha
    rw [hacc] at ha
    exact applyDelta_debit_invariant hinv hnd hA hguard a ha

/-- C2 fails as stated: account creation accepts a negative initial
deposit and commits an account whose balances are negative, and an
internal transfer accepts a negative amount and commits, driving the
destination's balances negative — both violating the invariant after a
committed operation. -/
theorem ledger_invariant_cex :
    ((createAccount bankXY "cust-1" "savings" "MAIN_BRANCH" "acc-9" "100100001009"
        (-100)).toOption.map (fun r => (r.2.balance, r.2.availableBalance)))
      = some (-100, -100)
    ∧ ((transferInternal bankXY "acc-1" "acc-3" (.num (-500)) "drain").toOption.map
        (fun r => (findAccount r.1.accounts "acc-3").map
          (fun a => (a.balance, a.availableBalance))))
      = some (some (-500, -500)) :=
  ⟨rfl, rfl⟩

/-- Witness for C2 (amended): a deposit of 500 and an internal transfer
of 30 over the concrete bank both commit states satisfying the
invariant. -/
theorem ledger_invariant_preservation_witness :
    bankInvariant wBank2 ∧ bankInvariant wBank1 :=
  ⟨ledger_invariant_preservation.1 bankXY "cust-2" "savings" "MAIN_BRANCH" "acc-4"
      "100100001004" 500 wBank2 (match wCreate with | .ok (_, a) => a | .error _ => default)
      (by decide) (by decide) rfl,
   ledger_invariant_preservation.2.1 bankXY "acc-1" "acc-2" "funds" 30 wBank1
      wDebitTx wCreditTx (by decide) (by decide) (by decide) rfl⟩

/-- C3: an internal transfer between distinct existing active accounts
whose amount strictly exceeds the source's (non-negative) available
balance fails with the insufficient-funds error.  The error is thrown
before the storage transaction begins, so the embedding's error result
carries no successor state: no balance changes and no Transaction row is
written. -/
theorem transferInternal_insufficient_funds
    (db : Bank) (f t desc : String) (m : Int) (A B : Account)
    (hf : f ≠ "") (ht : t ≠ "") (hft : f ≠ t)
    (hA : findAccount db.accounts f = some A)
    (hB : findAccount db.accounts t = some B)
    (hAa : A.status = "active") (hBa : B.status = "active")
    (hnn : 0 ≤ A.availableBalance)
    (hm : A.availableBalance < m) :
    transferInternal db f t (.num m) desc = .error .insufficientBalance := by
  have hm0 : m ≠ 0 := by omega
  unfold transferInternal
  rw [if_neg, if_neg hft]
  · rw [hA, hB]
    dsimp only
    rw [if_neg (fun hc => hc hAa), if_neg (fun hc => hc hBa)]
    dsimp only [AmountInput.toDecimal]
    rw [if_pos hm]
  · rintro (hc | hc | hc)
    · exact hf hc
    · exact ht hc
    · simp [AmountInput.truthy, hm0] at hc

/-- Witness for C3: transferring 10 000 out of the account with
available balance 800 is rejected with insufficient funds. -/
theorem transferInternal_insufficient_funds_witness :
    transferInternal bankXY "acc-1" "acc-2" (.num 10000) "too-much"
      = .error .insufficientBalance :=
  transferInternal_insufficient_funds bankXY "acc-1" "acc-2" "too-much" 10000
    accX accY (by decide) (by decide) (by decide) rfl rfl rfl rfl (by decide)
    (by decide)

/-- C8: an instant (IMPS) transfer above the fixed 500 000 per-transfer
ceiling fails with the limit-exceeded error — before the account is even
read, so no balance changes and no Transaction row is written; at or
below the ceiling, with the other validations passing, a single
completed debit Transaction on mode `imps` is appended. -/
theorem transferImps_ceiling :
    (∀ db f ba bn bi desc (m : Int), f ≠ "" → ba ≠ "" → bn ≠ "" → bi ≠ "" →
        500000 < m →
        transferImps db f ba bn bi (.num m) desc = .error .impsLimitExceeded)
    ∧ (∀ db f ba bn bi desc (m : Int) (A : Account), f ≠ "" → ba ≠ "" → bn ≠ "" →
        bi ≠ "" → m ≠ 0 → m ≤ 500000 →
        findAccount db.accounts f = some A → A.status = "active" →
        m ≤ A.availableBalance →
        ∃ db' tx, transferImps db f ba bn bi (.num m) desc = .ok (db', tx)
          ∧ tx.type = "debit" ∧ tx.mode = "imps" ∧ tx.status = "completed"
          ∧ db'.transactions = db.transactions ++ [tx]) := by
  constructor
  · intro db f ba bn bi desc m hf hba hbn hbi hm
    have hm0 : m ≠ 0 := by omega
    unfold transferImps
    rw [if_neg]
    · dsimp only [AmountInput.toDecimal]
      rw [if_pos hm]
    · rintro (hc | hc | hc | hc | hc)
      · exact hf hc
      · exact hba hc
      · exact hbn hc
      · exact hbi hc
      · simp [AmountInput.truthy, hm0] at hc
  · intro db f ba bn bi desc m A hf hba hbn hbi hm0 hm hA hAa havail
    unfold transferImps
    rw [if_neg]
    · dsimp only [AmountInput.toDecimal]
      rw [if_neg (by omega), hA]
      dsimp only
      rw [if_neg (fun hc => hc hAa), if_neg (by omega)]
      exact ⟨_, _, rfl, rfl, rfl, rfl, rfl⟩
    · rintro (hc | hc | hc | hc | hc)
      · exact hf hc
      · exact hba hc
      · exact hbn hc
      · exact hbi hc
      · simp [AmountInput.truthy, hm0] at hc

/-- Witness for C8: 500 001 is rejected with the limit error, and a
50-unit IMPS transfer commits a single completed debit row. -/
theorem transferImps_ceiling_witness :
    transferImps bankXY "acc-1" "EXT-99" "Payee" "IFSC0001" (.num 500001) "big"
      = .error .impsLimitExceeded
    ∧ (transferImps bankXY "acc-1" "EXT-99" "Payee" "IFSC0001" (.num 50) "ok").toOption.map
        (fun r => (r.2.type, r.2.mode, r.2.status, r.1.transactions.length))
      = some ("debit", "imps", "completed", 1) :=
  ⟨transferImps_ceiling.1 bankXY "acc-1" "EXT-99" "Payee" "IFSC0001" "big" 500001
      (by decide) (by decide) (by decide) (by decide) (by decide),
   rfl⟩

/-- C1 (amended): for distinct existing active accounts and a non-zero
amount `m ≤ source.availableBalance`, the internal transfer commits:
the source's balance and available balance each decrease by `m`, the
destination's each increase by `m`, exactly the two legs are appended —
a debit leg and a credit leg, both on mode `internal` with status
`completed`, with each leg's `balanceAfter` equal to its account's new
balance — and the credit leg references the debit leg, while the debit
leg carries no back-reference (the legs are not mutually
cross-referenced). -/
theorem transferInternal_ok_spec
    (db : Bank) (f t desc : String) (m : Int) (A B : Account)
    (hf : f ≠ "") (ht : t ≠ "") (hft : f ≠ t)
    (hA : findAccount db.accounts f = some A)
    (hB : findAccount db.accounts t = some B)
    (hAa : A.status = "active") (hBa : B.status = "active")
    (hm0 : m ≠ 0) (hm : m ≤ A.availableBalance) :
    ∃ db' dTx cTx,
      transferInternal db f t (.num m) desc = .ok (db', dTx, cTx)
      ∧ findAccount db'.accounts f = some (abDelta A (-m))
      ∧ findAccount db'.accounts t = some (abDelta B m)
      ∧ db'.transactions = db.transactions ++ [dTx, cTx]
      ∧ dTx.type = "debit" ∧ cTx.type = "credit"
      ∧ dTx.mode = "internal" ∧ cTx.mode = "internal"
      ∧ dTx.status = "completed" ∧ cTx.status = "completed"
      ∧ cTx.reference = some dTx.txId ∧ dTx.reference = none
      ∧ dTx.balanceAfter = A.balance - m ∧ cTx.balanceAfter = B.balance + m := by
  unfold transferInternal
  rw [if_neg, if_neg hft]
  · rw [hA, hB]
    dsimp only
    rw [if_neg (fun hc => hc hAa), if_neg (fun hc => hc hBa)]
    dsimp only [AmountInput.toDecimal]
    rw [if_neg (by omega)]
    refine ⟨_, _, _, rfl, ?_, ?_, rfl, rfl, rfl, rfl, rfl, rfl, rfl, rfl, rfl,
      rfl, rfl⟩
    · show findAccount (applyDelta (applyDelta db.accounts f (-m)) t m) f = _
      rw [findAccount_applyDelta_other _ hft m,
        findAccount_applyDelta_same, hA, Option.map_some']
    · show findAccount (applyDelta (applyDelta db.accounts f (-m)) t m) t = _
      rw [findAccount_applyDelta_same,
        findAccount_applyDelta_other _ (fun he => hft he.symm) (-m), hB,
        Option.map_some']
  · rintro (hc | hc | hc)
    · exact hf hc
    · exact ht hc
    · simp [AmountInput.truthy, hm0] at hc

/-- C1 fails as stated, on two counts, over the concrete bank: (i) the
amount 0 satisfies `0 ≤ availableBalance` yet the transfer is rejected
as a missing required field (JS falsiness of `amount`), creating no
rows; (ii) a successful transfer of 5 leaves the debit leg with
`reference = none` — only the credit leg references the debit leg, so
the two rows are not cross-referenced *to each other*. -/
theorem transferInternal_pair_cex :
    transferInternal bankXY "acc-1" "acc-2" (.num 0) "zero"
      = .error .requiredFields
    ∧ (transferInternal bankXY "acc-1" "acc-2" (.num 5) "five").toOption.map
        (fun r => r.2.1.reference) = some none :=
  ⟨rfl, rfl⟩

/-- Witness for C1 (amended): the concrete transfer of 30 from the
1000/800 account to the 50/50 account commits with the stated balances,
legs and one-directional reference. -/
theorem transferInternal_ok_spec_witness :
    findAccount wBank1.accounts "acc-1" = some (abDelta accX (-30))
    ∧ findAccount wBank1.accounts "acc-2" = some (abDelta accY 30)
    ∧ wBank1.transactions = bankXY.transactions ++ [wDebitTx, wCreditTx]
    ∧ wCreditTx.reference = some wDebitTx.txId ∧ wDebitTx.reference = none := by
  obtain ⟨db', dTx, cTx, heq, h1, h2, h3, _, _, _, _, _, _, h4, h5, _, _⟩ :=
    transferInternal_ok_spec bankXY "acc-1" "acc-2" "funds" 30 accX accY
      (by decide) (by decide) (by decide) rfl rfl rfl rfl (by decide) (by decide)
  have hdb : db' = wBank1 := by
    have h' : wInternal = .ok (db', dTx, cTx) := heq
    rw [show wBank1 = (match wInternal with
          | .ok (b, _, _) => b
          | .error _ => default) from rfl, h']
  have hd : dTx = wDebitTx := by
    have h' : wInternal = .ok (db', dTx, cTx) := heq
    rw [show wDebitTx = (match wInternal with
          | .ok (_, d, _) => d
          | .error _ => default) from rfl, h']
  have hc : cTx = wCreditTx := by
    have h' : wInternal = .ok (db', dTx, cTx) := heq
    rw [show wCreditTx = (match wInternal with
          | .ok (_, _, c) => c
          | .error _ => default) from rfl, h']
  subst hdb hd hc
  exact ⟨h1, h2, h3, h4, h5⟩

/-- C4 failing input (code bug): a **negative** amount is not rejected by
any rail.  The required-field check `if (!amount)` only rejects the falsy
`0`, the insufficient-funds comparison `availableBalance < amount` passes
for any negative amount, and there is no positivity validation, so an
internal transfer of −500 commits: both accounts mutate (the source
*gains* 500, the emptied destination ends at −500) and two completed
rows are written — where the claim requires an `InvalidAmount` failure
with no mutation.  For contrast, a zero amount does fail before any
write (though as a required-field error) and a non-numeric amount throws
at `new Prisma.Decimal`, also before any write. -/
theorem invalid_amount_not_rejected :
    ((transferInternal bankXY "acc-1" "acc-3" (.num (-500)) "drain").toOption.map
        (fun r => (r.1.transactions.length,
                   (findAccount r.1.accounts "acc-1").map (fun a => a.balance),
                   (findAccount r.1.accounts "acc-3").map (fun a => a.balance))))
      = some (2, some 1500, some (-500))
    ∧ transferInternal bankXY "acc-1" "acc-2" (.num 0) "zero"
        = .error .requiredFields
    ∧ transferInternal bankXY "acc-1" "acc-2" (.nonNumeric "abc") "nan"
        = .error .invalidDecimal
    ∧ ((transferImps bankXY "acc-1" "EXT-99" "Payee" "IFSC0001" (.num (-500))
          "drain").toOption.map (fun r => r.1.transactions.length)) = some 1
    ∧ ((transferNeft bankXY "acc-1" "EXT-99" "Payee" "ExtBank" "IFSC0001"
          (.num (-500)) "drain").toOption.map (fun r => r.1.transactions.length))
      = some 1 :=
  ⟨rfl, rfl, rfl, rfl, rfl⟩
